import Mathlib

set_option maxRecDepth 8000

/-!
Shallow embedding of src/main.py, a Pub/Sub consumer that decodes a client
payload, normalizes it, consults an optional Redis dedup cache, posts the
rendered JSON to a Discord webhook, and acknowledges the message.

Python strings are modelled as Lean String, Python/JSON values as JValue,
and the points where Python code can raise are modelled with Except PyErr.
Unicode facts (NFD decomposition, combining-mark category Mn, whitespace)
are modelled by explicit tables covering the Latin letters exercised here;
characters outside the table decompose to themselves, exactly as
unicodedata.normalize treats undecomposable characters.
-/

namespace ClientConsumer

/-- Python values as they come out of json.loads: None, bool, int, str,
list and dict (a dict is a list of key-value pairs without duplicate keys,
in insertion order). -/
inductive JValue where
  | null
  | bool (b : Bool)
  | num (n : Int)
  | str (s : String)
  | arr (elems : List JValue)
  | obj (fields : List (String × JValue))

/-- Python exceptions that the modelled code paths can raise. -/
inductive PyErr where
  | unicodeDecodeError
  | attributeError
  | typeError
deriving DecidableEq, Repr

/-- Python truthiness of a value (bool(v)): None, False, 0, empty string,
empty list and empty dict are falsy. -/
def truthy : JValue → Bool
  | .null => false
  | .bool b => b
  | .num n => !(n == 0)
  | .str s => !(s == "")
  | .arr l => !l.isEmpty
  | .obj l => !l.isEmpty

/-- Python dict lookup d.get(k): the value bound to the first (only)
occurrence of the key, if present. -/
def jget : List (String × JValue) → String → Option JValue
  | [], _ => none
  | (k, v) :: rest, key => if k = key then some v else jget rest key

/-- Python dict lookup d.get(k) returning None when absent. -/
def jgetD (fields : List (String × JValue)) (key : String) : JValue :=
  (jget fields key).getD .null

/-- Truthiness of an optional lookup result, with a missing key falsy
(d.get(k) returns None). -/
def truthyO (o : Option JValue) : Bool :=
  match o with
  | none => false
  | some v => truthy v

/-- Python dict assignment d[k] = v: update the existing binding in place,
or append a fresh one. -/
def jset : List (String × JValue) → String → JValue → List (String × JValue)
  | [], key, v => [(key, v)]
  | (k, w) :: rest, key, v =>
      if k = key then (k, v) :: rest else (k, w) :: jset rest key v

/-- Python `a or b`: a when a is truthy, else b. -/
def pyOr (a b : JValue) : JValue :=
  if truthy a then a else b

/-- Combining marks, modelled as the Unicode block U+0300 to U+036F
(the Mn characters produced by the decompositions in decompTable). -/
def isCombiningMark (c : Char) : Bool :=
  0x300 ≤ c.toNat && c.toNat ≤ 0x36F

/-- NFD decompositions of the precomposed Latin letters covered by this
model: each maps to its base letter followed by one combining mark. -/
def decompTable : List (Char × Char × Char) :=
  [('á', 'a', '́'), ('à', 'a', '̀'), ('â', 'a', '̂'),
   ('ã', 'a', '̃'), ('ä', 'a', '̈'), ('å', 'a', '̊'),
   ('é', 'e', '́'), ('è', 'e', '̀'), ('ê', 'e', '̂'),
   ('ë', 'e', '̈'),
   ('í', 'i', '́'), ('ì', 'i', '̀'), ('î', 'i', '̂'),
   ('ï', 'i', '̈'),
   ('ó', 'o', '́'), ('ò', 'o', '̀'), ('ô', 'o', '̂'),
   ('õ', 'o', '̃'), ('ö', 'o', '̈'),
   ('ú', 'u', '́'), ('ù', 'u', '̀'), ('û', 'u', '̂'),
   ('ü', 'u', '̈'),
   ('ç', 'c', '̧'), ('ñ', 'n', '̃'), ('ý', 'y', '́'),
   ('Á', 'A', '́'), ('À', 'A', '̀'), ('Â', 'A', '̂'),
   ('Ã', 'A', '̃'), ('Ä', 'A', '̈'), ('Å', 'A', '̊'),
   ('É', 'E', '́'), ('È', 'E', '̀'), ('Ê', 'E', '̂'),
   ('Ë', 'E', '̈'),
   ('Í', 'I', '́'), ('Ì', 'I', '̀'), ('Î', 'I', '̂'),
   ('Ï', 'I', '̈'),
   ('Ó', 'O', '́'), ('Ò', 'O', '̀'), ('Ô', 'O', '̂'),
   ('Õ', 'O', '̃'), ('Ö', 'O', '̈'),
   ('Ú', 'U', '́'), ('Ù', 'U', '̀'), ('Û', 'U', '̂'),
   ('Ü', 'U', '̈'),
   ('Ç', 'C', '̧'), ('Ñ', 'N', '̃'), ('Ý', 'Y', '́')]

/-- NFD decomposition of one character: the characters in decompTable
split into base letter plus combining mark, all others decompose to
themselves (unicodedata.normalize leaves them unchanged). -/
def decomposeChar (c : Char) : List Char :=
  match decompTable.find? (fun e => e.1 = c) with
  | some e => [e.2.1, e.2.2]
  | none => [c]

/-- NFD decomposition of a character list. -/
def decomposeAll : List Char → List Char
  | [] => []
  | c :: cs => decomposeChar c ++ decomposeAll cs

/-- Model of _remove_accents (src/main.py lines 37 to 44): normalize to
NFD and drop the combining marks; the falsy-string guard returns empty
input unchanged. -/
def remove_accents (text : String) : String :=
  if text = "" then text
  else String.mk ((decomposeAll text.data).filter (fun c => !(isCombiningMark c)))

/-- Model of str.lower per character on the range reached here (after
accent removal the covered characters are ASCII). -/
def pyLowerChar (c : Char) : Char := c.toLower

/-- Model of str.lower. -/
def pyLower (s : String) : String := String.mk (s.data.map pyLowerChar)

/-- Whitespace characters for str.strip and the regex class backslash-s:
ASCII whitespace, the C1 separators, NBSP and the main Unicode spaces. -/
def isPySpace (c : Char) : Bool :=
  c == ' ' || c == '\t' || c == '\n' || c == '\r' ||
  c == '\x0b' || c == '\x0c' ||
  (0x1c ≤ c.toNat && c.toNat ≤ 0x1f) || c.toNat == 0x85 || c.toNat == 0xa0 ||
  c.toNat == 0x1680 || (0x2000 ≤ c.toNat && c.toNat ≤ 0x200a) ||
  c.toNat == 0x2028 || c.toNat == 0x2029 || c.toNat == 0x202f ||
  c.toNat == 0x205f || c.toNat == 0x3000

/-- Model of str.strip: drop leading and trailing whitespace. -/
def pyStrip (s : String) : String :=
  String.mk ((((s.data.dropWhile isPySpace).reverse).dropWhile isPySpace).reverse)

/-- The single-quote character, used by the Python repr of strings. -/
def pyQuote : String := String.singleton (Char.ofNat 39)

mutual

/-- Python repr of a value (string quoting simplified to plain single
quotes, as no modelled string contains a quote or backslash). -/
def pyRepr : JValue → String
  | .null => "None"
  | .bool true => "True"
  | .bool false => "False"
  | .num n => toString n
  | .str s => pyQuote ++ s ++ pyQuote
  | .arr l => "[" ++ pyReprList l ++ "]"
  | .obj l => "\x7b" ++ pyReprFields l ++ "\x7d"

/-- Comma-separated reprs of list elements. -/
def pyReprList : List JValue → String
  | [] => ""
  | [v] => pyRepr v
  | v :: rest => pyRepr v ++ ", " ++ pyReprList rest

/-- Comma-separated reprs of dict entries. -/
def pyReprFields : List (String × JValue) → String
  | [] => ""
  | [(k, v)] => pyQuote ++ k ++ pyQuote ++ ": " ++ pyRepr v
  | (k, v) :: rest =>
      pyQuote ++ k ++ pyQuote ++ ": " ++ pyRepr v ++ ", " ++ pyReprFields rest

end

/-- Python str(v): a string is returned as is, every other value through
its repr. -/
def pyStr (v : JValue) : String :=
  match v with
  | .str s => s
  | v => pyRepr v

mutual

/-- Model of json.dumps (rendered without the indent whitespace, which no
claim inspects; string escaping simplified as in pyRepr). -/
def renderJson : JValue → String
  | .null => "null"
  | .bool true => "true"
  | .bool false => "false"
  | .num n => toString n
  | .str s => "\"" ++ s ++ "\""
  | .arr l => "[" ++ renderJsonList l ++ "]"
  | .obj l => "\x7b" ++ renderJsonFields l ++ "\x7d"

/-- Comma-separated rendering of array elements. -/
def renderJsonList : List JValue → String
  | [] => ""
  | [v] => renderJson v
  | v :: rest => renderJson v ++ ", " ++ renderJsonList rest

/-- Comma-separated rendering of object entries. -/
def renderJsonFields : List (String × JValue) → String
  | [] => ""
  | [(k, v)] => "\"" ++ k ++ "\": " ++ renderJson v
  | (k, v) :: rest =>
      "\"" ++ k ++ "\": " ++ renderJson v ++ ", " ++ renderJsonFields rest

end

/-- Characters kept by the regex class of _safe_filename, the pattern
keeping A-Z a-z 0-9 hyphen underscore and whitespace (backslash-s); every
other character is replaced by an underscore. -/
def fnameClassOk (c : Char) : Bool :=
  ('A' ≤ c && c ≤ 'Z') || ('a' ≤ c && c ≤ 'z') || ('0' ≤ c && c ≤ '9') ||
  c == '-' || c == '_' || isPySpace c

/-- The sanitising part of _safe_filename (src/main.py lines 60 to 64):
strip, remove accents, replace characters outside the class with
underscore, replace spaces with underscore, and cut to 50 characters. -/
def sanitizeName (s : String) : String :=
  String.mk
    ((((remove_accents (pyStrip s)).data.map
        (fun c => if fnameClassOk c then c else '_')).map
        (fun c => if c == ' ' then '_' else c)).take 50)

/-- The full filename string built by _safe_filename for an already
sanitised name part and a timestamp. -/
def filenameCore (name ts : String) : String :=
  "cliente_" ++ sanitizeName name ++ "_" ++ ts ++ ".txt"

/-- Model of _safe_filename (src/main.py lines 58 to 66). The argument is
the Python value passed in (client_data.get of the name); `name or
"cliente"` picks the fallback for falsy input, and .strip() raises
AttributeError when the surviving value is not a string. The timestamp ts
stands for utcnow formatted as in the source. -/
def safe_filename (name : JValue) (ts : String) : Except PyErr String :=
  match (if truthy name then name else .str "cliente") with
  | .str s => .ok (filenameCore s ts)
  | _ => .error .attributeError

/-- Model of unicodedata.normalize applied to an arbitrary Python value:
it raises TypeError unless the value is a string, so _remove_accents only
works on strings. -/
def removeAccentsVal : JValue → Except PyErr JValue
  | .str s => .ok (.str (remove_accents s))
  | _ => .error .typeError

/-- Is the value a Python str (the isinstance check of the formatter). -/
def isStr : JValue → Bool
  | .str _ => true
  | _ => false

/-- The normalisation loop of _format_client_text (src/main.py lines 73
to 78): accent removal on string values, every other value copied as is.
The isinstance guard is what keeps removeAccentsVal away from
non-strings. -/
def normalizeFields : List (String × JValue) → Except PyErr (List (String × JValue))
  | [] => .ok []
  | (k, v) :: rest =>
      match (if isStr v then removeAccentsVal v else .ok v) with
      | .error e => .error e
      | .ok v2 =>
          match normalizeFields rest with
          | .error e => .error e
          | .ok r => .ok ((k, v2) :: r)

/-- The seven client keys rendered by the formatter. -/
def clientKeys : List String :=
  ["name", "email", "phone", "company", "address", "preferred_contact", "notes"]

/-- The client_json dict of _format_client_text (src/main.py lines 80 to
89): the seven known fields of the normalised record (missing fields
become None, rendered null) plus created_at. -/
def clientJsonFields (normalized : List (String × JValue)) (now : String) :
    List (String × JValue) :=
  [("name", jgetD normalized "name"),
   ("email", jgetD normalized "email"),
   ("phone", jgetD normalized "phone"),
   ("company", jgetD normalized "company"),
   ("address", jgetD normalized "address"),
   ("preferred_contact", jgetD normalized "preferred_contact"),
   ("notes", jgetD normalized "notes"),
   ("created_at", .str now)]

/-- The client_json object built by _format_client_text, before dumps. -/
def format_client_json (client : List (String × JValue)) (now : String) :
    Except PyErr (List (String × JValue)) := do
  let normalized ← normalizeFields client
  .ok (clientJsonFields normalized now)

/-- Model of _format_client_text (src/main.py lines 68 to 91): the
client_json object rendered through json.dumps. -/
def format_client_text (client : List (String × JValue)) (now : String) :
    Except PyErr String :=
  (format_client_json client now).map (fun l => renderJson (.obj l))

/-- Characters kept by the regex class of _client_cache_key: lowercase
letters, digits and underscore; everything else becomes underscore. -/
def keyClassOk (c : Char) : Bool :=
  ('a' ≤ c && c ≤ 'z') || ('0' ≤ c && c ≤ '9') || c == '_'

/-- The normalised identifier of _client_cache_key: str(identifier) with
accents removed, lowercased, characters outside the class replaced by
underscore, cut to 64 characters. -/
def keyIdent (identifier : JValue) : String :=
  String.mk
    (((pyLower (remove_accents (pyStr identifier))).data.map
        (fun c => if keyClassOk c then c else '_')).take 64)

/-- Model of _client_cache_key (src/main.py lines 93 to 98): identity is
email, else phone, else name, else the sentinel, all chained through
Python or; the key prefixes the normalised identifier. -/
def client_cache_key (client : List (String × JValue)) : String :=
  let identifier :=
    pyOr (pyOr (pyOr (jgetD client "email") (jgetD client "phone"))
      (jgetD client "name")) (.str "unknown")
  "client_cache:" ++ keyIdent identifier

/-- Outcome of the HTTP POST inside the Delivery Client: a response with
a status code, or a network-level fault (requests raising). -/
inductive HttpResult where
  | status (n : Nat)
  | netFault
deriving DecidableEq, Repr

/-- Is the status a success for raise_for_status (any 2xx). -/
def is2xx (n : Nat) : Bool := 200 ≤ n && n < 300

/-- Does the modelled HTTP call succeed (2xx, so raise_for_status does
not raise). -/
def sendSucceeds : HttpResult → Bool
  | .status n => is2xx n
  | .netFault => false

/-- Observable actions of one callback run, in order: the webhook POST
attempt, the error log of a failed send, the cache marker write, the log
of a swallowed cache write fault, and the terminal ack or nack. -/
inductive Action where
  | deliverAttempt (text filename : String)
  | logSendError
  | cacheSet (key : String)
  | logCacheWriteFail
  | ack
  | nack
deriving DecidableEq, Repr

/-- Model of send_text_file_to_discord (src/main.py lines 46 to 56): one
POST attempt; on a non-2xx status raise_for_status raises and on a
network fault requests raises, both caught, logged and reported as False.
Returns the boolean result and the emitted actions. -/
def send_text_file_to_discord (http : HttpResult) (webhook_url text filename : String) :
    Bool × List Action :=
  if sendSucceeds http then (true, [.deliverAttempt text filename])
  else (false, [.deliverAttempt text filename, .logSendError])

/-- Result of redis_client.get on the computed key: a truthy cached
marker, a miss (None or falsy), or the client raising. -/
inductive CacheLookup where
  | hit
  | miss
  | fault
deriving DecidableEq, Repr

/-- The environment of one callback run: configuration, the connected
state of Redis, and the outcomes of the external calls. ts is the
strftime timestamp used for the filename, now the one used for
created_at. -/
structure Env where
  discordUrl : Option String
  hasRedis : Bool
  cacheLookup : CacheLookup
  redisTtlOk : Bool
  cacheSetOk : Bool
  http : HttpResult
  ts : String
  now : String

/-- A raw byte payload, classified by the outcome of its first processing
steps, which depend only on the bytes: utf8Json v when the bytes are
valid UTF-8 and json.loads of the decoded text yields v; utf8NonJson t
when the bytes decode to the text t but t is not JSON (so decoding with
errors replace also yields t); invalidUtf8 r when the bytes are not valid
UTF-8 and r is the replacement-decoded text. Every byte string falls in
exactly one class. -/
inductive Raw where
  | utf8Json (v : JValue)
  | utf8NonJson (text : String)
  | invalidUtf8 (replaced : String)

/-- The decode portion of callback (src/main.py lines 106 to 128),
keyed on the three possible outcomes of raw.decode plus json.loads. The
strict utf-8 decode at line 112 raises UnicodeDecodeError on invalid
bytes, and that exception is not a json.JSONDecodeError, so it escapes
the inner handler; for decoded JSON, a dict with a client key uses that
value, a dict without it is used whole, and a non-dict is wrapped as a
notes string. -/
def decodeStage : Raw → Except PyErr JValue
  | .utf8Json v =>
      .ok (match v with
        | .obj fs =>
            match jget fs "client" with
            | some c => c
            | none => .obj fs
        | other => .obj [("notes", .str (pyStr other))])
  | .utf8NonJson t => .ok (.obj [("notes", .str t)])
  | .invalidUtf8 _ => .error .unicodeDecodeError

/-- The minimum-content validation of callback (src/main.py lines 130 to
135): client_data.get raises AttributeError on a non-dict; a falsy name
first fills notes with str of the dict when notes is falsy, then sets the
placeholder name. -/
def validateStage : JValue → Except PyErr (List (String × JValue))
  | .obj fs =>
      if truthyO (jget fs "name") then .ok fs
      else
        let fs1 :=
          if truthyO (jget fs "notes") then fs
          else jset fs "notes" (.str (pyStr (.obj fs)))
        .ok (jset fs1 "name" (.str "Cliente_Sem_Nome"))
  | _ => .error .attributeError

/-- The delivery block of callback (src/main.py lines 149 to 176): with
Redis, a cache hit skips the send; a miss sends and, on success, parses
REDIS_TTL (a parse fault escapes to the cache handler, which retries the
send without cache) and writes the marker, swallowing a write fault; a
lookup fault falls back to a cache-less send; without Redis, plain send. -/
def deliverActions (env : Env) (url text filename : String)
    (client : List (String × JValue)) : List Action :=
  if env.hasRedis then
    match env.cacheLookup with
    | .hit => []
    | .miss =>
        let s := send_text_file_to_discord env.http url text filename
        if s.1 then
          if env.redisTtlOk then
            s.2 ++ (if env.cacheSetOk then [.cacheSet (client_cache_key client)]
                    else [.logCacheWriteFail])
          else
            s.2 ++ (send_text_file_to_discord env.http url text filename).2
        else s.2
    | .fault => (send_text_file_to_discord env.http url text filename).2
  else (send_text_file_to_discord env.http url text filename).2

/-- Model of callback (src/main.py lines 100 to 185): decode, validate,
then, when DISCORD_URL is configured, build filename and body and run the
delivery block; the try block ends in ack, and any escaped exception is
caught by the outer handler which nacks. -/
def callback (env : Env) (raw : Raw) : List Action :=
  match decodeStage raw with
  | .error _ => [.nack]
  | .ok cd =>
      match validateStage cd with
      | .error _ => [.nack]
      | .ok client =>
          match env.discordUrl with
          | none => [.ack]
          | some url =>
              match safe_filename (jgetD client "name") env.ts with
              | .error _ => [.nack]
              | .ok filename =>
                  match format_client_text client env.now with
                  | .error _ => [.nack]
                  | .ok text =>
                      deliverActions env url text filename client ++ [.ack]

/-- Is the action a terminal acknowledgement (ack or nack). -/
def isTerminal : Action → Bool
  | .ack => true
  | .nack => true
  | _ => false

/-- Is the action a webhook POST attempt. -/
def isDeliver : Action → Bool
  | .deliverAttempt _ _ => true
  | _ => false

/-- Is the action a dedup cache marker write. -/
def isCacheSet : Action → Bool
  | .cacheSet _ => true
  | _ => false

/-- Number of terminal actions in a trace. -/
def countTerminal (tr : List Action) : Nat := tr.countP isTerminal

/-- Number of webhook POST attempts in a trace. -/
def countDeliver (tr : List Action) : Nat := tr.countP isDeliver

/-- Number of cache marker writes in a trace. -/
def countCacheSet (tr : List Action) : Nat := tr.countP isCacheSet

/-- The decode plus validate stages chained, as callback runs them: the
record the pipeline works with, or the exception that escapes to the
outer handler. -/
def pipelineDecode (raw : Raw) : Except PyErr (List (String × JValue)) :=
  match decodeStage raw with
  | .error e => .error e
  | .ok cd => validateStage cd

/-- The payload shapes on which the decode plus validate stages cannot
raise: everything except invalid UTF-8 bytes and JSON dicts whose client
field holds a non-dict value. -/
def goodShape : Raw → Bool
  | .invalidUtf8 _ => false
  | .utf8Json (.obj fs) =>
      match jget fs "client" with
      | some (.obj _) => true
      | some _ => false
      | none => true
  | .utf8Json _ => true
  | .utf8NonJson _ => true

/-- Characters of one input character after NFD decomposition, mark
removal and lowercasing: the identity-on-content normalisation under
which two strings differ only in case and accents. -/
def stripCaseAccentsList : List Char → List Char
  | [] => []
  | c :: cs =>
      ((decomposeChar c).filter (fun d => !(isCombiningMark d))).map pyLowerChar
        ++ stripCaseAccentsList cs

/-- Two strings are the same up to case and accents exactly when this
normalisation agrees on them. -/
def stripCaseAccents (s : String) : String :=
  String.mk (stripCaseAccentsList s.data)

/-- The characters a safe filename may contain: the characters the
sanitiser keeps (letters, digits, hyphen, underscore, with spaces already
replaced) plus the dot of the extension. -/
def allowedFilenameChar (c : Char) : Bool :=
  ('A' ≤ c && c ≤ 'Z') || ('a' ≤ c && c ≤ 'z') || ('0' ≤ c && c ≤ '9') ||
  c == '-' || c == '_' || c == '.'

/-- The normalisation the formatter applies to one field value: accent
removal on strings, identity elsewhere. -/
def normVal (v : JValue) : JValue :=
  match v with
  | .str s => .str (remove_accents s)
  | v => v

/-- The normalised copy of the client dict that the formatter builds. -/
def normalizePure (fs : List (String × JValue)) : List (String × JValue) :=
  fs.map (fun kv => (kv.1, normVal kv.2))

/-- A fixed timestamp standing for utcnow strftime in concrete runs. -/
def baseTs : String := "20260101_000000"

/-- A fixed created_at timestamp for concrete runs. -/
def baseNow : String := "2026-01-01 00:00:00 UTC"

/-- A concrete environment for counterexample runs: webhook configured,
no Redis, HTTP success. -/
def demoEnv : Env :=
  ⟨some "https://discord.example/wh", false, .miss, true, true, .status 204,
   baseTs, baseNow⟩

theorem countTerminal_append (a b : List Action) :
    countTerminal (a ++ b) = countTerminal a + countTerminal b :=
  List.countP_append isTerminal a b

theorem countDeliver_append (a b : List Action) :
    countDeliver (a ++ b) = countDeliver a + countDeliver b :=
  List.countP_append isDeliver a b

theorem countCacheSet_append (a b : List Action) :
    countCacheSet (a ++ b) = countCacheSet a + countCacheSet b :=
  List.countP_append isCacheSet a b

theorem jget_jset_self (l : List (String × JValue)) (k : String) (v : JValue) :
    jget (jset l k v) k = some v := by
  induction l with
  | nil => simp [jset, jget]
  | cons hd tl ih =>
      obtain ⟨k2, w⟩ := hd
      by_cases h : k2 = k
      · simp [jset, h, jget]
      · simp [jset, h, jget, ih]

theorem validateStage_obj_ok (fs : List (String × JValue)) :
    ∃ out, validateStage (.obj fs) = .ok out ∧ truthyO (jget out "name") = true := by
  cases h : truthyO (jget fs "name") with
  | true => exact ⟨fs, by simp [validateStage, h], h⟩
  | false =>
      refine ⟨jset (if truthyO (jget fs "notes") = true then fs
        else jset fs "notes" (.str (pyStr (.obj fs)))) "name"
        (.str "Cliente_Sem_Nome"), ?_, ?_⟩
      · simp [validateStage, h]
      · simp [jget_jset_self, truthyO, truthy]

theorem send_snd_cases (h : HttpResult) (u t f : String) :
    (send_text_file_to_discord h u t f).2 = [.deliverAttempt t f] ∨
    (send_text_file_to_discord h u t f).2 = [.deliverAttempt t f, .logSendError] := by
  unfold send_text_file_to_discord
  by_cases hs : sendSucceeds h = true <;> simp [hs]

theorem countTerminal_send (h : HttpResult) (u t f : String) :
    countTerminal (send_text_file_to_discord h u t f).2 = 0 := by
  rcases send_snd_cases h u t f with hc | hc <;>
    rw [hc] <;> rfl

theorem countDeliver_send (h : HttpResult) (u t f : String) :
    countDeliver (send_text_file_to_discord h u t f).2 = 1 := by
  rcases send_snd_cases h u t f with hc | hc <;>
    rw [hc] <;> rfl

theorem countCacheSet_send (h : HttpResult) (u t f : String) :
    countCacheSet (send_text_file_to_discord h u t f).2 = 0 := by
  rcases send_snd_cases h u t f with hc | hc <;>
    rw [hc] <;> rfl

theorem countTerminal_deliverActions (env : Env) (url text filename : String)
    (client : List (String × JValue)) :
    countTerminal (deliverActions env url text filename client) = 0 := by
  unfold deliverActions send_text_file_to_discord
  cases hs : sendSucceeds env.http <;>
  cases env.hasRedis <;>
  cases env.cacheLookup <;>
  cases env.redisTtlOk <;>
  cases env.cacheSetOk <;>
    simp [hs, countTerminal, isTerminal, List.countP_cons]

/-- C3: for every inbound message and environment, every execution path
of callback issues exactly one terminal action, an ack or a nack, never
neither and never both. -/
theorem c3_exactly_one_terminal (env : Env) (raw : Raw) :
    countTerminal (callback env raw) = 1 := by
  unfold callback
  cases hd : decodeStage raw with
  | error e => rfl
  | ok cd =>
      dsimp only
      cases hv : validateStage cd with
      | error e => rfl
      | ok client =>
          dsimp only
          cases hu : env.discordUrl with
          | none => rfl
          | some url =>
              dsimp only
              cases hf : safe_filename (jgetD client "name") env.ts with
              | error e => rfl
              | ok filename =>
                  dsimp only
                  cases htx : format_client_text client env.now with
                  | error e => rfl
                  | ok text =>
                      dsimp only
                      rw [countTerminal_append, countTerminal_deliverActions]
                      rfl

theorem string_data_inj {s t : String} (h : s.data = t.data) : s = t := by
  cases s
  cases t
  exact congrArg String.mk h

theorem safe_filename_str (s ts : String) :
    safe_filename (.str s) ts =
      .ok (filenameCore (if s = "" then "cliente" else s) ts) := by
  by_cases h : s = ""
  · simp [safe_filename, truthy, h]
  · simp [safe_filename, truthy, h]

theorem normalizeFields_eq (fs : List (String × JValue)) :
    normalizeFields fs = .ok (normalizePure fs) := by
  induction fs with
  | nil => rfl
  | cons hd tl ih =>
      obtain ⟨k, v⟩ := hd
      cases v <;>
        simp [normalizeFields, normalizePure, removeAccentsVal, isStr, normVal, ih]

theorem format_client_text_eq (client : List (String × JValue)) (now : String) :
    format_client_text client now =
      .ok (renderJson (.obj (clientJsonFields (normalizePure client) now))) := by
  unfold format_client_text format_client_json
  rw [normalizeFields_eq]
  rfl

theorem deliverActions_noRedis (env : Env) (url text filename : String)
    (client : List (String × JValue)) (hr : env.hasRedis = false) :
    deliverActions env url text filename client =
      (send_text_file_to_discord env.http url text filename).2 := by
  simp [deliverActions, hr]

theorem deliverActions_lookupFault (env : Env) (url text filename : String)
    (client : List (String × JValue)) (hr : env.hasRedis = true)
    (hl : env.cacheLookup = .fault) :
    deliverActions env url text filename client =
      (send_text_file_to_discord env.http url text filename).2 := by
  simp [deliverActions, hr, hl]

theorem callback_delivery (env : Env) (raw : Raw) (cd : JValue)
    (client : List (String × JValue)) (url filename text : String)
    (hd : decodeStage raw = .ok cd)
    (hv : validateStage cd = .ok client)
    (hu : env.discordUrl = some url)
    (hf : safe_filename (jgetD client "name") env.ts = .ok filename)
    (htx : format_client_text client env.now = .ok text) :
    callback env raw = deliverActions env url text filename client ++ [.ack] := by
  unfold callback
  rw [hd]
  dsimp only
  rw [hv]
  dsimp only
  rw [hu]
  dsimp only
  rw [hf]
  dsimp only
  rw [htx]

/-- C1 counterexample: the payload with empty name and empty notes (all
of name, email, phone and notes empty after decoding) is processed with
the webhook configured, and the pipeline DOES invoke the Delivery Client
once before acknowledging, contradicting the claim that it acknowledges
without calling it. -/
theorem c1_counterexample :
    decodeStage (.utf8Json (.obj [("name", .str ""), ("notes", .str "")])) =
      .ok (.obj [("name", .str ""), ("notes", .str "")]) ∧
    truthyO (jget [("name", JValue.str ""), ("notes", JValue.str "")] "name") = false ∧
    truthyO (jget [("name", JValue.str ""), ("notes", JValue.str "")] "email") = false ∧
    truthyO (jget [("name", JValue.str ""), ("notes", JValue.str "")] "phone") = false ∧
    truthyO (jget [("name", JValue.str ""), ("notes", JValue.str "")] "notes") = false ∧
    countDeliver (callback demoEnv
      (.utf8Json (.obj [("name", .str ""), ("notes", .str "")]))) = 1 ∧
    (callback demoEnv
      (.utf8Json (.obj [("name", .str ""), ("notes", .str "")]))).getLast? =
      some .ack :=
  ⟨rfl, rfl, rfl, rfl, rfl, rfl, rfl⟩

/-- C1 (amended): for every decoded record in which all of name, email,
phone and notes are empty, and a webhook URL is configured with no Redis
cache, the pipeline does NOT skip the message: it pads the record with a
placeholder name and a notes dump, invokes the Delivery Client exactly
once, and acknowledges the message. -/
theorem c1_amended_empty_record_delivers (env : Env) (raw : Raw)
    (fs : List (String × JValue)) (url : String)
    (hd : decodeStage raw = .ok (.obj fs))
    (hname : truthyO (jget fs "name") = false)
    (hmail : truthyO (jget fs "email") = false)
    (hphone : truthyO (jget fs "phone") = false)
    (hnotes : truthyO (jget fs "notes") = false)
    (hu : env.discordUrl = some url)
    (hr : env.hasRedis = false) :
    countDeliver (callback env raw) = 1 ∧
    (callback env raw).getLast? = some .ack := by
  have hv : validateStage (.obj fs) =
      .ok (jset (jset fs "notes" (.str (pyStr (.obj fs)))) "name"
        (.str "Cliente_Sem_Nome")) := by
    simp [validateStage, hname, hnotes]
  have hgn : jgetD (jset (jset fs "notes" (.str (pyStr (.obj fs)))) "name"
      (.str "Cliente_Sem_Nome")) "name" = .str "Cliente_Sem_Nome" := by
    simp [jgetD, jget_jset_self]
  have hf : safe_filename (jgetD (jset (jset fs "notes"
      (.str (pyStr (.obj fs)))) "name" (.str "Cliente_Sem_Nome")) "name") env.ts =
      .ok (filenameCore "Cliente_Sem_Nome" env.ts) := by
    rw [hgn, safe_filename_str]
    rfl
  have hcb := callback_delivery env raw (.obj fs) _ url _ _ hd hv hu hf
    (format_client_text_eq _ env.now)
  rw [hcb, deliverActions_noRedis env url _ _ _ hr]
  constructor
  · rw [countDeliver_append, countDeliver_send]
    rfl
  · simp [List.getLast?_append]

/-- C1 witness: the amended theorem applied to the concrete all-empty
payload of the counterexample. -/
theorem c1_witness :
    decodeStage (.utf8Json (.obj [("name", .str ""), ("notes", .str "")])) =
      .ok (.obj [("name", .str ""), ("notes", .str "")]) ∧
    truthyO (jget [("name", JValue.str ""), ("notes", JValue.str "")] "name") = false ∧
    demoEnv.discordUrl = some "https://discord.example/wh" ∧
    demoEnv.hasRedis = false ∧
    (countDeliver (callback demoEnv
        (.utf8Json (.obj [("name", .str ""), ("notes", .str "")]))) = 1 ∧
      (callback demoEnv
        (.utf8Json (.obj [("name", .str ""), ("notes", .str "")]))).getLast? =
        some .ack) :=
  ⟨rfl, rfl, rfl, rfl,
    c1_amended_empty_record_delivers demoEnv
      (.utf8Json (.obj [("name", .str ""), ("notes", .str "")]))
      [("name", .str ""), ("notes", .str "")] "https://discord.example/wh"
      rfl rfl rfl rfl rfl rfl rfl⟩

/-- C2 counterexample: for the JSON payload whose client field holds the
number 5, the decode plus validate stages raise AttributeError (the
non-dict value has no get method), so no usable ClientRecord is produced
and the pipeline nacks instead of completing the Decoding transition. -/
theorem c2_counterexample :
    pipelineDecode (.utf8Json (.obj [("client", .num 5)])) =
      .error .attributeError ∧
    callback demoEnv (.utf8Json (.obj [("client", .num 5)])) = [.nack] :=
  ⟨rfl, rfl⟩

/-- C2 (amended): the decode stage produces a usable ClientRecord, with
a truthy name in the worst case a placeholder plus a notes dump, for
every payload of good shape, that is for all byte payloads except
invalid UTF-8 bytes (the strict decode raises UnicodeDecodeError past
the JSON handler) and JSON dicts whose client field holds a non-dict
value (the subsequent attribute access raises); on those two shapes the
pipeline raises and nacks. -/
theorem c2_amended_decode_total_on_good_shapes (raw : Raw)
    (h : goodShape raw = true) :
    ∃ client, pipelineDecode raw = .ok client ∧
      truthyO (jget client "name") = true := by
  cases raw with
  | invalidUtf8 r => simp [goodShape] at h
  | utf8NonJson t =>
      have := validateStage_obj_ok [("notes", .str t)]
      simpa [pipelineDecode, decodeStage] using this
  | utf8Json v =>
      cases v with
      | obj fs =>
          cases hj : jget fs "client" with
          | none =>
              have := validateStage_obj_ok fs
              simpa [pipelineDecode, decodeStage, hj] using this
          | some c =>
              cases c with
              | obj g =>
                  have := validateStage_obj_ok g
                  simpa [pipelineDecode, decodeStage, hj] using this
              | null => simp [goodShape, hj] at h
              | bool b => simp [goodShape, hj] at h
              | num n => simp [goodShape, hj] at h
              | str s => simp [goodShape, hj] at h
              | arr l => simp [goodShape, hj] at h
      | null =>
          have := validateStage_obj_ok [("notes", .str (pyStr .null))]
          simpa [pipelineDecode, decodeStage] using this
      | bool b =>
          have := validateStage_obj_ok [("notes", .str (pyStr (.bool b)))]
          simpa [pipelineDecode, decodeStage] using this
      | num n =>
          have := validateStage_obj_ok [("notes", .str (pyStr (.num n)))]
          simpa [pipelineDecode, decodeStage] using this
      | str s =>
          have := validateStage_obj_ok [("notes", .str (pyStr (.str s)))]
          simpa [pipelineDecode, decodeStage] using this
      | arr l =>
          have := validateStage_obj_ok [("notes", .str (pyStr (.arr l)))]
          simpa [pipelineDecode, decodeStage] using this

/-- C2 witness: the amended theorem applied to the concrete non-JSON
text payload hello world, a good shape. -/
theorem c2_witness :
    goodShape (.utf8NonJson "hello world") = true ∧
    ∃ client, pipelineDecode (.utf8NonJson "hello world") = .ok client ∧
      truthyO (jget client "name") = true :=
  ⟨rfl, c2_amended_decode_total_on_good_shapes (.utf8NonJson "hello world") rfl⟩

/-- C9: when the Redis lookup raises during the dedup check, the
pipeline falls back to a cache-less delivery: exactly one webhook call
is attempted, no dedup marker is ever written on this path, whatever
the HTTP outcome is, and the message is acknowledged. -/
theorem c9_cache_fault_fallback_no_marker (env : Env) (raw : Raw)
    (cd : JValue) (client : List (String × JValue)) (url filename text : String)
    (hd : decodeStage raw = .ok cd)
    (hv : validateStage cd = .ok client)
    (hu : env.discordUrl = some url)
    (hf : safe_filename (jgetD client "name") env.ts = .ok filename)
    (htx : format_client_text client env.now = .ok text)
    (hr : env.hasRedis = true)
    (hl : env.cacheLookup = .fault) :
    countCacheSet (callback env raw) = 0 ∧
    countDeliver (callback env raw) = 1 ∧
    (callback env raw).getLast? = some .ack := by
  have hcb := callback_delivery env raw cd client url filename text hd hv hu hf htx
  rw [hcb, deliverActions_lookupFault env url text filename client hr hl]
  refine ⟨?_, ?_, ?_⟩
  · rw [countCacheSet_append, countCacheSet_send]
    rfl
  · rw [countDeliver_append, countDeliver_send]
    rfl
  · simp [List.getLast?_append]

/-- C9 witness: the theorem applied to a concrete run with a cache
lookup fault and a successful delivery (204), showing the marker is not
written even though delivery succeeded. -/
theorem c9_witness :
    decodeStage (.utf8Json (.obj [("name", .str "Ana"), ("email", .str "a@b.com")])) =
      .ok (.obj [("name", .str "Ana"), ("email", .str "a@b.com")]) ∧
    sendSucceeds (HttpResult.status 204) = true ∧
    (countCacheSet (callback
        ⟨some "https://discord.example/wh", true, .fault, true, true, .status 204,
          baseTs, baseNow⟩
        (.utf8Json (.obj [("name", .str "Ana"), ("email", .str "a@b.com")]))) = 0 ∧
      countDeliver (callback
        ⟨some "https://discord.example/wh", true, .fault, true, true, .status 204,
          baseTs, baseNow⟩
        (.utf8Json (.obj [("name", .str "Ana"), ("email", .str "a@b.com")]))) = 1 ∧
      (callback
        ⟨some "https://discord.example/wh", true, .fault, true, true, .status 204,
          baseTs, baseNow⟩
        (.utf8Json (.obj [("name", .str "Ana"), ("email", .str "a@b.com")]))).getLast? =
        some .ack) :=
  ⟨rfl, rfl,
    c9_cache_fault_fallback_no_marker
      ⟨some "https://discord.example/wh", true, .fault, true, true, .status 204,
        baseTs, baseNow⟩
      (.utf8Json (.obj [("name", .str "Ana"), ("email", .str "a@b.com")]))
      (.obj [("name", .str "Ana"), ("email", .str "a@b.com")])
      [("name", .str "Ana"), ("email", .str "a@b.com")]
      "https://discord.example/wh"
      (filenameCore "Ana" baseTs)
      (renderJson (.obj (clientJsonFields
        (normalizePure [("name", .str "Ana"), ("email", .str "a@b.com")]) baseNow)))
      rfl rfl rfl rfl rfl rfl rfl⟩

/-- C6 counterexample: non-JSON bytes that are not valid UTF-8 (the
payload of the single byte 0xff, whose replacement-decoded text is the
replacement character) do NOT get their text placed into notes: the
strict decode raises UnicodeDecodeError before the replacement fallback
is reachable, and the pipeline nacks. -/
theorem c6_counterexample :
    decodeStage (.invalidUtf8 "�") = .error .unicodeDecodeError ∧
    callback demoEnv (.invalidUtf8 "�") = [.nack] :=
  ⟨rfl, rfl⟩

/-- C6 (amended): for every JSON dict payload with a client key, decode
uses the value of that key as the record; for a bare JSON dict without a
client key, decode uses that dict directly; for non-JSON bytes that are
valid UTF-8, decode places the decoded text into notes; but bytes that
are not valid UTF-8 raise (the replacement decode at line 127 is only
reached when the strict decode at line 112 already succeeded). -/
theorem c6_amended_decode_shapes (fs g : List (String × JValue)) (t r : String) :
    (jget fs "client" = some (.obj g) →
      decodeStage (.utf8Json (.obj fs)) = .ok (.obj g)) ∧
    (jget fs "client" = none →
      decodeStage (.utf8Json (.obj fs)) = .ok (.obj fs)) ∧
    decodeStage (.utf8NonJson t) = .ok (.obj [("notes", .str t)]) ∧
    decodeStage (.invalidUtf8 r) = .error .unicodeDecodeError := by
  refine ⟨?_, ?_, rfl, rfl⟩
  · intro h
    unfold decodeStage
    dsimp only
    rw [h]
  · intro h
    unfold decodeStage
    dsimp only
    rw [h]

/-- C6 witness: the amended theorem applied at a wrapped payload, a bare
payload and a non-JSON text payload. -/
theorem c6_witness :
    (jget [("client", JValue.obj [("name", JValue.str "Ana")])] "client" =
        some (.obj [("name", JValue.str "Ana")]) ∧
      decodeStage (.utf8Json (.obj [("client", .obj [("name", .str "Ana")])])) =
        .ok (.obj [("name", .str "Ana")])) ∧
    (jget [("name", JValue.str "Bo")] "client" = none ∧
      decodeStage (.utf8Json (.obj [("name", .str "Bo")])) =
        .ok (.obj [("name", .str "Bo")])) ∧
    decodeStage (.utf8NonJson "hello world") =
      .ok (.obj [("notes", .str "hello world")]) :=
  ⟨⟨rfl,
      (c6_amended_decode_shapes [("client", .obj [("name", .str "Ana")])]
        [("name", .str "Ana")] "hello world" "x").1 rfl⟩,
    ⟨rfl,
      (c6_amended_decode_shapes [("name", .str "Bo")] [] "hello world" "x").2.1 rfl⟩,
    (c6_amended_decode_shapes [] [] "hello world" "x").2.2.1⟩

theorem decomposeAll_filter_map (l : List Char) :
    ((decomposeAll l).filter (fun c => !(isCombiningMark c))).map pyLowerChar =
      stripCaseAccentsList l := by
  induction l with
  | nil => rfl
  | cons c cs ih =>
      simp [decomposeAll, stripCaseAccentsList, List.filter_append, List.map_append, ih]

theorem pyLower_remove_accents (s : String) :
    pyLower (remove_accents s) = stripCaseAccents s := by
  by_cases h : s = ""
  · subst h
    rfl
  · unfold remove_accents
    rw [if_neg h]
    unfold pyLower stripCaseAccents
    simp [decomposeAll_filter_map]

theorem keyIdent_str (e : String) :
    keyIdent (.str e) =
      String.mk (((stripCaseAccents e).data.map
        (fun c => if keyClassOk c then c else '_')).take 64) := by
  unfold keyIdent
  rw [show pyStr (.str e) = e from rfl, pyLower_remove_accents]

theorem client_cache_key_email (c : List (String × JValue)) (e : String)
    (h : jget c "email" = some (.str e)) (hne : e ≠ "") :
    client_cache_key c = "client_cache:" ++ keyIdent (.str e) := by
  unfold client_cache_key
  have hg : jgetD c "email" = .str e := by simp [jgetD, h]
  rw [hg]
  have ht : truthy (JValue.str e) = true := by simp [truthy, hne]
  simp [pyOr, ht]

/-- C4 counterexample: the two distinct emails a at b.com and a.b.com
produce the identical DedupKey, refuting the clause that records with
different emails produce different keys: the punctuation characters both
collapse to underscore. -/
theorem c4_counterexample :
    ("a@b.com" : String) ≠ "a.b.com" ∧
    client_cache_key [("email", JValue.str "a@b.com")] =
      client_cache_key [("email", JValue.str "a.b.com")] :=
  ⟨by decide, rfl⟩

/-- C4 (amended): two ClientRecords whose non-empty email fields differ
only in case and accents produce identical DedupKeys; and two records
with different emails produce different DedupKeys exactly when the
normalised identifiers (accents stripped, lowercased, characters outside
lowercase alphanumerics and underscore collapsed to underscore, cut to 64
characters) differ — emails that agree after that collapsing, such as
ones differing only in punctuation, share a key. -/
theorem c4_amended_dedup_key (c1 c2 : List (String × JValue)) (e1 e2 : String)
    (h1 : jget c1 "email" = some (.str e1)) (h2 : jget c2 "email" = some (.str e2))
    (hne1 : e1 ≠ "") (hne2 : e2 ≠ "") :
    (stripCaseAccents e1 = stripCaseAccents e2 →
      client_cache_key c1 = client_cache_key c2) ∧
    (keyIdent (.str e1) ≠ keyIdent (.str e2) →
      client_cache_key c1 ≠ client_cache_key c2) := by
  rw [client_cache_key_email c1 e1 h1 hne1, client_cache_key_email c2 e2 h2 hne2]
  constructor
  · intro hs
    rw [keyIdent_str, keyIdent_str, hs]
  · intro hk hkey
    apply hk
    apply string_data_inj
    have hdata := congrArg String.data hkey
    rw [String.data_append, String.data_append] at hdata
    exact List.append_cancel_left hdata

/-- C4 witness: identical keys for the same email up to case and
accents, distinct keys for emails with distinct normalised
identifiers. -/
theorem c4_witness :
    (jget [("email", JValue.str "JoSe@Ex.com")] "email" =
        some (.str "JoSe@Ex.com") ∧
      stripCaseAccents "JoSe@Ex.com" = stripCaseAccents "josé@ex.com" ∧
      client_cache_key [("email", JValue.str "JoSe@Ex.com")] =
        client_cache_key [("email", JValue.str "josé@ex.com")]) ∧
    (keyIdent (.str "a@b.com") ≠ keyIdent (.str "x@y.com") ∧
      client_cache_key [("email", JValue.str "a@b.com")] ≠
        client_cache_key [("email", JValue.str "x@y.com")]) :=
  ⟨⟨rfl, rfl,
      (c4_amended_dedup_key [("email", .str "JoSe@Ex.com")]
        [("email", .str "josé@ex.com")] "JoSe@Ex.com" "josé@ex.com"
        rfl rfl (by decide) (by decide)).1 rfl⟩,
    ⟨by decide,
      (c4_amended_dedup_key [("email", .str "a@b.com")]
        [("email", .str "x@y.com")] "a@b.com" "x@y.com"
        rfl rfl (by decide) (by decide)).2 (by decide)⟩⟩

theorem filenameCore_data (s ts : String) :
    (filenameCore s ts).data =
      ("cliente_" : String).data ++ ((sanitizeName s).data ++
        (("_" : String).data ++ (ts.data ++ (".txt" : String).data))) := by
  simp [filenameCore, String.data_append, List.append_assoc]

/-- C7 counterexample: the two distinct names a-space-b and a_b produce
the identical filename at the same second, refuting the claim that
filename derivation never collides within the same second for distinct
names: the sanitiser maps the space to the same underscore. -/
theorem c7_counterexample :
    ("a b" : String) ≠ "a_b" ∧
    filenameCore "a b" baseTs = filenameCore "a_b" baseTs ∧
    safe_filename (.str "a b") baseTs = safe_filename (.str "a_b") baseTs :=
  ⟨by decide, rfl, rfl⟩

/-- C7 (amended): within the same second, two name inputs produce the
identical filename exactly when the sanitised forms of their effective
names coincide, the effective name being the input itself or the
fallback cliente for an empty input (the name-or-cliente step at line
60); so distinct names whose sanitised effective forms coincide
(whitespace or punctuation collapsing, accent stripping, the
50-character cut, or an empty name against the literal cliente)
collide, and all other pairs of names get distinct filenames. -/
theorem c7_amended_filename_collision_iff (n1 n2 ts : String) :
    safe_filename (.str n1) ts = safe_filename (.str n2) ts ↔
      sanitizeName (if n1 = "" then "cliente" else n1) =
        sanitizeName (if n2 = "" then "cliente" else n2) := by
  rw [safe_filename_str, safe_filename_str]
  constructor
  · intro hok
    have heq := Except.ok.inj hok
    apply string_data_inj
    have hd := congrArg String.data heq
    rw [filenameCore_data, filenameCore_data] at hd
    exact List.append_cancel_right (List.append_cancel_left hd)
  · intro h
    unfold filenameCore
    rw [h]

theorem decompTable_no_space :
    ∀ e ∈ decompTable, isPySpace e.2.1 = false ∧ isPySpace e.2.2 = false := by
  decide

theorem mem_decomposeChar_space {d c : Char} (hc : c ∈ decomposeChar d)
    (hs : isPySpace c = true) : c = d := by
  unfold decomposeChar at hc
  cases hfind : decompTable.find? (fun e => e.1 = d) with
  | none =>
      rw [hfind] at hc
      simpa using hc
  | some e =>
      rw [hfind] at hc
      have hmem : e ∈ decompTable := List.mem_of_find?_eq_some hfind
      have hns := decompTable_no_space e hmem
      simp only [List.mem_cons, List.mem_singleton, List.not_mem_nil, or_false] at hc
      rcases hc with h | h <;> subst h <;> simp_all

theorem mem_decomposeAll {l : List Char} {c : Char} (h : c ∈ decomposeAll l) :
    ∃ d ∈ l, c ∈ decomposeChar d := by
  induction l with
  | nil => simp [decomposeAll] at h
  | cons a as ih =>
      rw [decomposeAll] at h
      rcases List.mem_append.1 h with h1 | h1
      · exact ⟨a, by simp, h1⟩
      · obtain ⟨d, hd, hcd⟩ := ih h1
        exact ⟨d, by simp [hd], hcd⟩

theorem mem_pyStrip {s : String} {c : Char} (h : c ∈ (pyStrip s).data) :
    c ∈ s.data := by
  unfold pyStrip at h
  have h1 : c ∈ ((s.data.dropWhile isPySpace).reverse.dropWhile isPySpace).reverse := h
  have h2 := List.mem_reverse.1 h1
  have h3 := (List.dropWhile_sublist isPySpace).subset h2
  have h4 := List.mem_reverse.1 h3
  exact (List.dropWhile_sublist isPySpace).subset h4

theorem mem_remove_accents_space {s : String} {c : Char}
    (h : c ∈ (remove_accents s).data) (hs : isPySpace c = true) : c ∈ s.data := by
  unfold remove_accents at h
  by_cases he : s = ""
  · rw [if_pos he] at h
    subst he
    simpa using h
  · rw [if_neg he] at h
    have h2 : c ∈ decomposeAll s.data := List.mem_of_mem_filter h
    obtain ⟨d, hd, hcd⟩ := mem_decomposeAll h2
    have heq : c = d := mem_decomposeChar_space hcd hs
    rw [heq]
    exact hd

theorem sanitizeName_chars (s : String)
    (hs : ∀ c ∈ s.data, isPySpace c = true → c = ' ') :
    ∀ c ∈ (sanitizeName s).data, allowedFilenameChar c = true := by
  intro c hc
  unfold sanitizeName at hc
  have hc1 := List.take_subset 50 _ hc
  rcases List.mem_map.1 hc1 with ⟨b1, hb1, hrepl⟩
  rcases List.mem_map.1 hb1 with ⟨b, hb, hsubst⟩
  by_cases hb1sp : b1 = ' '
  · rw [hb1sp] at hrepl
    rw [← hrepl]
    rfl
  · have hcb1 : c = b1 := by
      rw [← hrepl]
      simp [hb1sp]
    by_cases hcls : fnameClassOk b = true
    · rw [if_pos hcls] at hsubst
      have hcb : c = b := by rw [hcb1, ← hsubst]
      simp only [fnameClassOk, Bool.or_eq_true, Bool.and_eq_true,
        decide_eq_true_eq, beq_iff_eq] at hcls
      rcases hcls with (((((hr | hr) | hr) | hr) | hr) | hr)
      · simp [allowedFilenameChar, hcb, hr.1, hr.2]
      · simp [allowedFilenameChar, hcb, hr.1, hr.2]
      · simp [allowedFilenameChar, hcb, hr.1, hr.2]
      · simp [allowedFilenameChar, hcb, hr]
      · simp [allowedFilenameChar, hcb, hr]
      · -- b is whitespace kept by the class: it must come from the name,
        -- whose whitespace is restricted to plain spaces by hs
        have hbmem : b ∈ s.data := mem_pyStrip (mem_remove_accents_space hb hr)
        have hbsp : b = ' ' := hs b hbmem hr
        rw [hbsp] at hsubst
        rw [← hsubst] at hb1sp
        exact absurd rfl hb1sp
    · rw [if_neg hcls] at hsubst
      rw [hcb1, ← hsubst]
      rfl

/-- C8 counterexample: the name containing a tab keeps the tab through
the sanitiser (the regex class keeps all whitespace but only plain
spaces are replaced by underscore), so the produced filename contains a
character outside the allowed set. -/
theorem c8_counterexample :
    safe_filename (.str "a\tb") baseTs = .ok (filenameCore "a\tb" baseTs) ∧
    '\t' ∈ (filenameCore "a\tb" baseTs).data ∧
    allowedFilenameChar '\t' = false :=
  ⟨rfl, by decide, rfl⟩

/-- C8 (amended): for every name input the produced filename is
non-empty, its variable part is cut at 50 characters and the total
length is bounded by the cap plus the fixed affixes; and as long as the
name contains no whitespace other than plain spaces (and the timestamp
is made of allowed characters), every character of the filename lies in
the allowed set; a tab or newline in the name, however, survives into
the filename. -/
theorem c8_amended_filename_safety (n ts f : String)
    (hok : safe_filename (.str n) ts = .ok f) :
    (f ≠ "" ∧
      (sanitizeName (if n = "" then "cliente" else n)).length ≤ 50 ∧
      f.length ≤ 63 + ts.length) ∧
    ((∀ c ∈ n.data, isPySpace c = true → c = ' ') →
      (∀ c ∈ ts.data, allowedFilenameChar c = true) →
      ∀ c ∈ f.data, allowedFilenameChar c = true) := by
  rw [safe_filename_str] at hok
  have hf : f = filenameCore (if n = "" then "cliente" else n) ts :=
    (Except.ok.inj hok).symm
  subst hf
  have hlen : (sanitizeName (if n = "" then "cliente" else n)).length ≤ 50 := by
    unfold sanitizeName
    exact List.length_take_le _ _
  have hd : (filenameCore (if n = "" then "cliente" else n) ts).length =
      8 + ((sanitizeName (if n = "" then "cliente" else n)).length +
        (1 + (ts.length + 4))) := by
    show (filenameCore (if n = "" then "cliente" else n) ts).data.length = _
    rw [filenameCore_data]
    simp only [List.length_append]
    have l1 : ("cliente_" : String).data.length = 8 := rfl
    have l2 : ("_" : String).data.length = 1 := rfl
    have l3 : (".txt" : String).data.length = 4 := rfl
    have e1 : (sanitizeName (if n = "" then "cliente" else n)).data.length =
        (sanitizeName (if n = "" then "cliente" else n)).length := rfl
    have e2 : ts.data.length = ts.length := rfl
    rw [l1, l2, l3, e1, e2]
  refine ⟨⟨?_, hlen, ?_⟩, ?_⟩
  · intro h0
    rw [h0] at hd
    have h00 : ("" : String).length = 0 := rfl
    rw [h00] at hd
    omega
  · rw [hd]
    omega
  · intro hsn hts c hc
    have hlit1 : ∀ x ∈ ("cliente_" : String).data, allowedFilenameChar x = true := by
      decide
    have hlit2 : ∀ x ∈ ("_" : String).data, allowedFilenameChar x = true := by
      decide
    have hlit3 : ∀ x ∈ (".txt" : String).data, allowedFilenameChar x = true := by
      decide
    rw [filenameCore_data] at hc
    rcases List.mem_append.1 hc with h1 | h1
    · exact hlit1 c h1
    rcases List.mem_append.1 h1 with h2 | h2
    · refine sanitizeName_chars _ ?_ c h2
      by_cases hn : n = ""
      · rw [if_pos hn]
        decide
      · rw [if_neg hn]
        exact hsn
    rcases List.mem_append.1 h2 with h3 | h3
    · exact hlit2 c h3
    rcases List.mem_append.1 h3 with h4 | h4
    · exact hts c h4
    · exact hlit3 c h4

/-- C8 witness: the amended theorem applied to a name containing
accents, spaces and punctuation. -/
theorem c8_witness :
    safe_filename (.str "José da Silva!!") baseTs =
      .ok (filenameCore "José da Silva!!" baseTs) ∧
    ((filenameCore "José da Silva!!" baseTs ≠ "" ∧
      (sanitizeName (if ("José da Silva!!" : String) = "" then "cliente"
        else "José da Silva!!")).length ≤ 50 ∧
      (filenameCore "José da Silva!!" baseTs).length ≤ 63 + baseTs.length) ∧
     ∀ c ∈ (filenameCore "José da Silva!!" baseTs).data,
        allowedFilenameChar c = true) :=
  ⟨rfl,
    ⟨(c8_amended_filename_safety "José da Silva!!" baseTs
        (filenameCore "José da Silva!!" baseTs) (by rw [safe_filename_str]; rfl)).1,
      (c8_amended_filename_safety "José da Silva!!" baseTs
        (filenameCore "José da Silva!!" baseTs) (by rw [safe_filename_str]; rfl)).2
        (by decide) (by decide)⟩⟩

theorem jget_normalizePure (fs : List (String × JValue)) (k : String) :
    jget (normalizePure fs) k = (jget fs k).map normVal := by
  induction fs with
  | nil => rfl
  | cons hd tl ih =>
      obtain ⟨k1, v⟩ := hd
      by_cases h : k1 = k
      · simp [normalizePure, jget, h]
      · simp only [normalizePure, List.map_cons, jget, h, if_false]
        simpa [normalizePure] using ih

theorem normVal_nonstr {v : JValue} (h : isStr v = false) : normVal v = v := by
  cases v <;> simp [normVal] <;> simp [isStr] at h

theorem jget_clientJsonFields (nrm : List (String × JValue)) (now k : String)
    (hk : k ∈ clientKeys) :
    jget (clientJsonFields nrm now) k = some (jgetD nrm k) := by
  fin_cases hk <;> rfl

/-- C10: for every client record containing a non-string value under one
of the rendered keys, the formatter does not raise: accent removal is
applied only to string values (the isinstance guard), and the non-string
value is passed through into the rendered JSON object unchanged. -/
theorem c10_formatter_non_string_passthrough (fs : List (String × JValue))
    (now k : String) (v : JValue)
    (hget : jget fs k = some v) (hns : isStr v = false) (hk : k ∈ clientKeys) :
    ∃ out, format_client_text fs now = .ok (renderJson (.obj out)) ∧
      jget out k = some v := by
  refine ⟨clientJsonFields (normalizePure fs) now, ?_, ?_⟩
  · rw [format_client_text_eq]
  · rw [jget_clientJsonFields _ _ _ hk]
    unfold jgetD
    rw [jget_normalizePure, hget]
    simp [normVal_nonstr hns]

/-- C10 witness: the theorem applied to a record whose phone field holds
the number 911. -/
theorem c10_witness :
    jget [("name", JValue.str "Ana"), ("phone", JValue.num 911)] "phone" =
      some (.num 911) ∧
    isStr (JValue.num 911) = false ∧
    ("phone" : String) ∈ clientKeys ∧
    ∃ out, format_client_text [("name", .str "Ana"), ("phone", .num 911)] baseNow =
        .ok (renderJson (.obj out)) ∧ jget out "phone" = some (.num 911) :=
  ⟨rfl, rfl, by decide,
    c10_formatter_non_string_passthrough
      [("name", .str "Ana"), ("phone", .num 911)] baseNow "phone" (.num 911)
      rfl rfl (by decide)⟩

end ClientConsumer
